import Mathlib

/-!
Verification of the route-construction and timing engine of a delivery-dispatch
application: the greedy VRPTW solvers, the ETA/timing simulator with synthetic
depot returns, the route splitter, the traffic refinement pass and the
time-slot batcher.

Modelling conventions (shallow embedding of the TypeScript source):
* Timestamps and durations are integers (seconds since an arbitrary epoch);
  ISO strings in the source are parsed to such integers before any arithmetic,
  so each `...Iso` string field is embedded as an integer field.
* `Date.getHours()` is embedded as `hourOfDay` (hours in UTC; the engine treats
  the configured timezone uniformly, so the offset is irrelevant to the claims).
* Monetary amounts are represented in integer cents: the source computes
  `Math.ceil(x * 100) / 100`, i.e. a value with exactly two decimals, which is
  the integer `Math.ceil(x * 100)` of cents.  `ceilDiv` is exact integer
  ceiling division.
* Matrices are embedded as total functions `Nat -> Nat -> Int`; all claims
  quantify over valid inputs, where every access of the source is in range.
* External HTTP services (the live directions service) are embedded as oracle
  function parameters; their fallible parsing is an `Except`.
-/

namespace TabkhaDriver

/-- Hour of day (0..23) of an epoch-seconds timestamp, as `Date.getHours()`. -/
def hourOfDay (t : Int) : Int :=
  (t % 86400) / 3600

/-- Exact integer ceiling division (for positive divisor): `ceilDiv a b = ⌈a / b⌉`. -/
def ceilDiv (a b : Int) : Int :=
  (a + b - 1) / b

/-- A delivery stop (lib/types.ts `Stop`), time windows in epoch seconds. -/
structure Stop where
  id : String
  name : String
  lat : Int
  lng : Int
  timeWindowStart : Int
  timeWindowEnd : Int
  serviceMinutes : Int
deriving DecidableEq, Repr

instance : Inhabited Stop :=
  ⟨⟨"", "", 0, 0, 0, 0, 0⟩⟩

/-- A stop augmented with computed timing (lib/types.ts `OptimizedStop`).
`etaIso` is embedded as epoch seconds.  The optional source fields
`travelSecondsFromPrev`, `waitSecondsBeforeWindow` and `isDepotReturn` are
always set by the producers embedded here, so they are plain fields
(`isDepotReturn` absent in the source means `false`). -/
structure OptimizedStop where
  id : String
  name : String
  lat : Int
  lng : Int
  timeWindowStart : Int
  timeWindowEnd : Int
  serviceMinutes : Int
  etaIso : Int
  arrivalDelayMinutes : Int
  travelSecondsFromPrev : Int
  waitSecondsBeforeWindow : Int
  isDepotReturn : Bool
deriving DecidableEq, Repr

instance : Inhabited OptimizedStop :=
  ⟨⟨"", "", 0, 0, 0, 0, 0, 0, 0, 0, 0, false⟩⟩

/-- Forget the computed timing fields, recovering the underlying `Stop`. -/
def OptimizedStop.toStop (e : OptimizedStop) : Stop :=
  ⟨e.id, e.name, e.lat, e.lng, e.timeWindowStart, e.timeWindowEnd, e.serviceMinutes⟩

/-- The `{...stop, etaIso, arrivalDelayMinutes, travelSecondsFromPrev,
waitSecondsBeforeWindow}` spread of the source: a `Stop` with timing attached
(`isDepotReturn` stays absent, i.e. `false`). -/
def Stop.withTiming (s : Stop) (eta delay travel wait : Int) : OptimizedStop :=
  ⟨s.id, s.name, s.lat, s.lng, s.timeWindowStart, s.timeWindowEnd, s.serviceMinutes,
    eta, delay, travel, wait, false⟩

/-- One leg of a route (lib/types.ts `RouteResult`); costs in cents. -/
structure RouteResult where
  id : String
  stops : List OptimizedStop
  totalDurationSeconds : Int
  totalDistanceMeters : Int
  estimatedCost : Int
  averageCostPerDrop : Int
deriving DecidableEq, Repr

/-- Duration and distance matrices (depot at index 0, stops at 1..n). -/
structure MatrixPair where
  durationsSeconds : Nat → Nat → Int
  distancesMeters : Nat → Nat → Int

/-- The optimizer response shape shared by the route endpoints
(lib/types.ts `OptimizeResponse`, polyline fields omitted); costs in cents. -/
structure OptimizeResponse where
  orderedStops : List OptimizedStop
  totalDistanceMeters : Int
  totalDurationSeconds : Int
  driverStartTime : Int
  routes : List RouteResult
deriving DecidableEq, Repr

/-! ## Greedy VRPTW solvers (lib/utils/monthlyQuota.ts, third and fourth documents)

`SolveInput` embeds the `SolveInput` type of both solver files: the duration
matrix (depot at matrix index 0, stop `i` at matrix index `i+1`), per-stop
service minutes, per-stop time windows (epoch seconds) and an optional start
time.  Lists of length `n` in the source are embedded as functions from stop
index, read only at indices `< n`. -/

structure SolveInput where
  n : Nat
  matrixSeconds : Nat → Nat → Int
  serviceMinutes : Nat → Int
  winStart : Nat → Int
  winEnd : Nat → Int
  startTime : Option Int
  avoidRushHour : Bool

/-- `serviceSec = serviceMinutes.map(m => Math.max(0, Math.round(m * 60)))`. -/
def serviceSecOf (inp : SolveInput) (i : Nat) : Int :=
  max 0 (inp.serviceMinutes i * 60)

/-- Initial clock of the plain solver: the provided start time, else `0`. -/
def initClockPlain (inp : SolveInput) : Int :=
  match inp.startTime with
  | some t => t
  | none => 0

/-- Score of candidate stop `i` in the plain solver, from matrix node `cur` at
time `t`: `(lateness > 0 ? 1e9 + lateness : 0) + wait + travel`. -/
def scorePlain (inp : SolveInput) (cur : Nat) (t : Int) (i : Nat) : Int :=
  let travel := inp.matrixSeconds cur (i + 1)
  let arrival := t + travel
  let wait := max 0 (inp.winStart i - arrival)
  let lateness := max 0 (arrival - inp.winEnd i)
  (if 0 < lateness then 1000000000 + lateness else 0) + wait + travel

/-- Scan of all unvisited stops for the minimum score (first minimum wins,
matching the source scan with strict `<`). -/
def pickBest (inp : SolveInput) (cur : Nat) (t : Int) (ord : List Nat) : Option Nat :=
  (List.range inp.n).foldl
    (fun best i =>
      if i ∈ ord then best
      else
        match best with
        | none => some i
        | some b => if scorePlain inp cur t i < scorePlain inp cur t b then some i else best)
    none

/-- Main loop of the plain solver (`for k in 0..n-1` with early break when no
candidate is picked); `cur` is the current matrix node, `t` the clock. -/
def solveGo (inp : SolveInput) : Nat → Nat → Int → List Nat → List Nat
  | 0, _, _, ord => ord
  | fuel + 1, cur, t, ord =>
    match pickBest inp cur t ord with
    | none => ord
    | some b =>
      let node := b + 1
      let travel := inp.matrixSeconds cur node
      let t1 := t + travel
      let t2 := if t1 < inp.winStart b then inp.winStart b else t1
      solveGo inp fuel node (t2 + serviceSecOf inp b) (ord ++ [b])

/-- The plain greedy VRPTW solver (`solveVRPTW`): runs the greedy loop and, if
not all stops were visited, appends the remaining stops in index order. -/
def solveVRPTW (inp : SolveInput) : List Nat :=
  let ord := solveGo inp inp.n 0 (initClockPlain inp) []
  if ord.length ≠ inp.n then
    ord ++ (List.range inp.n).filter (fun i => decide (i ∉ ord))
  else ord

/-- `Math.min(...winStart)` over the `n` stops (unused when `n = 0`, where the
source value is `Infinity` and the solver loop never runs). -/
def earliestWinStart (inp : SolveInput) : Int :=
  (((List.range inp.n).map inp.winStart).min?).getD 0

/-- Initial clock of the traffic-aware solver: the provided start time, else
one hour before the earliest window start. -/
def initClockTA (inp : SolveInput) : Int :=
  match inp.startTime with
  | some t => t
  | none => earliestWinStart inp - 3600

/-- Rush hour test of the traffic-aware solver: arrival hour in [8,10) or [16,19). -/
def isRushHourAt (t : Int) : Prop :=
  (8 ≤ hourOfDay t ∧ hourOfDay t < 10) ∨ (16 ≤ hourOfDay t ∧ hourOfDay t < 19)

instance (t : Int) : Decidable (isRushHourAt t) := by
  unfold isRushHourAt
  infer_instance

/-- Feasibility test of the traffic-aware solver: service (starting at the
window start if the arrival is earlier) completes no later than the window
close; the source skips a candidate when `serviceEnd > winEnd`. -/
def feasibleTA (inp : SolveInput) (cur : Nat) (t : Int) (i : Nat) : Prop :=
  let travel := inp.matrixSeconds cur (i + 1)
  let arrival := t + travel
  max arrival (inp.winStart i) + serviceSecOf inp i ≤ inp.winEnd i

instance (inp : SolveInput) (cur : Nat) (t : Int) (i : Nat) :
    Decidable (feasibleTA inp cur t i) := by
  unfold feasibleTA
  infer_instance

/-- Twice the traffic-aware score (`travel + wait`, plus `travel * 0.5` during
rush hour when `avoidRushHour` is set).  The source score is a float whose only
non-integer contribution is the exact half `travel * 0.5`; doubling keeps it in
`Int` and preserves every strict comparison. -/
def scoreTA2 (inp : SolveInput) (cur : Nat) (t : Int) (i : Nat) : Int :=
  let travel := inp.matrixSeconds cur (i + 1)
  let arrival := t + travel
  let wait := max 0 (inp.winStart i - arrival)
  2 * travel + 2 * wait +
    (if inp.avoidRushHour ∧ isRushHourAt arrival then travel else 0)

/-- Candidate scan of the traffic-aware solver: unvisited and feasible stops
only, minimum (doubled) score, first minimum wins. -/
def pickBestTA (inp : SolveInput) (cur : Nat) (t : Int) (ord : List Nat) : Option Nat :=
  (List.range inp.n).foldl
    (fun best i =>
      if i ∈ ord then best
      else if ¬ feasibleTA inp cur t i then best
      else
        match best with
        | none => some i
        | some b => if scoreTA2 inp cur t i < scoreTA2 inp cur t b then some i else best)
    none

/-- Main loop of the traffic-aware solver (`while order.length < n`, breaking
when no feasible candidate remains, with no fallback append). -/
def solveTAGo (inp : SolveInput) : Nat → Nat → Int → List Nat → List Nat
  | 0, _, _, ord => ord
  | fuel + 1, cur, t, ord =>
    match pickBestTA inp cur t ord with
    | none => ord
    | some b =>
      let node := b + 1
      let travel := inp.matrixSeconds cur node
      let arrival := t + travel
      let serviceStart := max arrival (inp.winStart b)
      solveTAGo inp fuel node (serviceStart + serviceSecOf inp b) (ord ++ [b])

/-- The traffic-aware greedy VRPTW solver (`solveVRPTWTrafficAware`).  Unlike
the plain solver it does not append unvisited stops after the loop. -/
def solveVRPTWTrafficAware (inp : SolveInput) : List Nat :=
  solveTAGo inp inp.n 0 (initClockTA inp) []

/-! ## ETA/timing simulator (lib/utils/eta.ts, two versions)

The current version inserts a synthetic depot return when the wait exceeds 25
minutes or when the stop falls in a different coarse time period than the
previous one; the legacy version only has the wait rule.  Both are embedded by
`computeEtasAux`, with the period rule switched by the `periodRule` flag. -/

/-- Coarse time period of a window-start timestamp: 1 = morning [7,12),
2 = afternoon [12,16), 3 = evening [16,20), 0 = other. -/
def getTimePeriod (t : Int) : Int :=
  let hour := hourOfDay t
  if 7 ≤ hour ∧ hour < 12 then 1
  else if 12 ≤ hour ∧ hour < 16 then 2
  else if 16 ≤ hour ∧ hour < 20 then 3
  else 0

/-- `isDifferentTimePeriod`: the two window starts fall in different periods. -/
def isDifferentTimePeriod (t1 t2 : Int) : Prop :=
  getTimePeriod t1 ≠ getTimePeriod t2

instance (t1 t2 : Int) : Decidable (isDifferentTimePeriod t1 t2) := by
  unfold isDifferentTimePeriod
  infer_instance

/-- Parameters of `computeEtas`: start time, depot coordinate, visiting order
with the map back to original indices, and the two matrices. -/
structure EtaParams where
  startTimeIso : Int
  depotLat : Int
  depotLng : Int
  orderedStops : List Stop
  originalIndices : List Nat
  durationsSeconds : Nat → Nat → Int
  distancesMeters : Nat → Nat → Int

/-- Simulation state of `computeEtas`: clock, previous matrix node, running
totals and the emitted entries. -/
structure EtaState where
  currentTime : Int
  prevMatrixNode : Nat
  totalDistance : Int
  totalDuration : Int
  acc : List OptimizedStop

/-- The body of the `forEach` over position `idx`, split out of the state:
given clock `cur` and previous matrix node `prev`, returns the emitted entries
and the new clock, new node and distance/duration increments.
`periodRule` selects the current version (period rule on) or the legacy one. -/
def etaStepCore (periodRule : Bool) (p : EtaParams) (idx : Nat) (cur : Int) (prev : Nat) :
    List OptimizedStop × Int × Nat × Int × Int :=
  let stop := p.orderedStops.getD idx default
  let originalStopIndex := p.originalIndices.getD idx 0
  let node := originalStopIndex + 1
  let travelSec := p.durationsSeconds prev node
  let travelMeters := p.distancesMeters prev node
  let arrivalAtStop := cur + travelSec
  let windowStart := stop.timeWindowStart
  let windowEnd := stop.timeWindowEnd
  let waitSeconds := if arrivalAtStop < windowStart then windowStart - arrivalAtStop else 0
  if 1500 < waitSeconds ∨
      (periodRule = true ∧ 0 < idx ∧
        isDifferentTimePeriod (p.orderedStops.getD (idx - 1) default).timeWindowStart windowStart) then
    let returnToDepotSec := p.durationsSeconds node 0
    let returnToDepotMeters := p.distancesMeters node 0
    let arrivalAtDepot := arrivalAtStop + returnToDepotSec
    let depotEntry : OptimizedStop :=
      ⟨"depot-return-" ++ toString idx, "Return to Depot", p.depotLat, p.depotLng,
        arrivalAtDepot, arrivalAtDepot, 0, arrivalAtDepot, 0, returnToDepotSec, 0, true⟩
    let travelFromDepotSec := p.durationsSeconds 0 node
    let travelFromDepotMeters := p.distancesMeters 0 node
    let actualArrival := windowStart
    ([depotEntry, stop.withTiming actualArrival 0 travelFromDepotSec 0],
      actualArrival + stop.serviceMinutes * 60, node,
      travelMeters + returnToDepotMeters + travelFromDepotMeters,
      travelSec + returnToDepotSec + travelFromDepotSec)
  else
    let arrival := if arrivalAtStop < windowStart then windowStart else arrivalAtStop
    let countedWait := if arrivalAtStop < windowStart then waitSeconds else 0
    let delayMin := max 0 ((arrival - windowEnd + 59) / 60)
    ([stop.withTiming arrival delayMin travelSec waitSeconds],
      arrival + stop.serviceMinutes * 60, node,
      travelMeters, travelSec + countedWait)

/-- One `forEach` iteration applied to the whole state. -/
def etaStep (periodRule : Bool) (p : EtaParams) (s : EtaState) (idx : Nat) : EtaState :=
  let r := etaStepCore periodRule p idx s.currentTime s.prevMatrixNode
  ⟨r.2.1, r.2.2.1, s.totalDistance + r.2.2.2.1, s.totalDuration + r.2.2.2.2, s.acc ++ r.1⟩

/-- State after the first `i` iterations of the `forEach`. -/
def stateAfter (periodRule : Bool) (p : EtaParams) (i : Nat) : EtaState :=
  (List.range i).foldl (etaStep periodRule p) ⟨p.startTimeIso, 0, 0, 0, []⟩

/-- Result of `computeEtas`. -/
structure EtaResult where
  orderedStops : List OptimizedStop
  totalDistanceMeters : Int
  totalDurationSeconds : Int
deriving DecidableEq, Repr

/-- `computeEtas`, both versions: run the `forEach`, then unconditionally add a
final synthetic depot return when stops were visited. -/
def computeEtasAux (periodRule : Bool) (p : EtaParams) : EtaResult :=
  let s := stateAfter periodRule p p.orderedStops.length
  if 0 < p.orderedStops.length ∧ 0 < s.prevMatrixNode then
    let returnToDepotSec := p.durationsSeconds s.prevMatrixNode 0
    let returnToDepotMeters := p.distancesMeters s.prevMatrixNode 0
    let arrivalAtDepot := s.currentTime + returnToDepotSec
    let finalEntry : OptimizedStop :=
      ⟨"depot-return-final", "Return to Depot", p.depotLat, p.depotLng,
        arrivalAtDepot, arrivalAtDepot, 0, arrivalAtDepot, 0, returnToDepotSec, 0, true⟩
    ⟨s.acc ++ [finalEntry], s.totalDistance + returnToDepotMeters,
      s.totalDuration + returnToDepotSec⟩
  else
    ⟨s.acc, s.totalDistance, s.totalDuration⟩

/-- The current ETA simulator (with the time-period depot-return rule). -/
def computeEtas (p : EtaParams) : EtaResult :=
  computeEtasAux true p

/-- The legacy ETA simulator (wait-threshold depot-return rule only). -/
def computeEtasLegacy (p : EtaParams) : EtaResult :=
  computeEtasAux false p

/-! ## Route splitter (src/app/api/deliveries/route/[date]/route.ts) -/

/-- `createRouteResult`: per-leg duration as the sum over the stops of
`travelSecondsFromPrev + waitSecondsBeforeWindow + serviceMinutes * 60`; cost
at 30 per hour, rounded up to cents; average cost per non-depot-return drop,
same rounding, `0` when the leg has no real stop.  Per-stop distance is not
tracked, so `totalDistanceMeters` is the placeholder `0` as in the source. -/
def createRouteResult (index : Nat) (stops : List OptimizedStop) : RouteResult :=
  let totalDuration := stops.foldl
    (fun acc s => acc + (s.travelSecondsFromPrev + s.waitSecondsBeforeWindow + s.serviceMinutes * 60)) 0
  let cost := ceilDiv (totalDuration * 30 * 100) 3600
  let dropCount := (stops.filter (fun s => ¬ s.isDepotReturn)).length
  let avgCost := if 0 < dropCount then ceilDiv cost dropCount else 0
  ⟨"route - " ++ toString index ++ " ", stops, totalDuration, 0, cost, avgCost⟩

/-- The loop of `splitRoutes`: push stops into the current leg, closing the leg
after every depot-return stop; leftover stops form a final defensive leg. -/
def splitGo : List OptimizedStop → List OptimizedStop → Nat → List RouteResult
  | [], currentStops, idx =>
    if 0 < currentStops.length then [createRouteResult idx currentStops] else []
  | stop :: rest, currentStops, idx =>
    let cur := currentStops ++ [stop]
    if stop.isDepotReturn then createRouteResult idx cur :: splitGo rest [] (idx + 1)
    else splitGo rest cur idx

/-- `splitRoutes`: partition the optimized stop sequence into legs at every
depot-return marker. -/
def splitRoutes (stops : List OptimizedStop) : List RouteResult :=
  splitGo stops [] 1

/-! ## Traffic refinement pass (refine-traffic.google.ts and its POST route)

The live directions service is embedded as an oracle
`fetchResp : origin -> destination -> departure time -> DirectionsResponse`;
`getSegmentDuration` performs the validation the source does on the HTTP
response and throws (returns `Except.error`) on any failure. -/

/-- A location `{lat, lng}`. -/
abbrev Loc := Int × Int

/-- The first leg of a directions route (`routes[0].legs[0]`): base duration,
optional traffic-aware duration, distance. -/
structure DirectionsLeg where
  duration : Int
  durationInTraffic : Option Int
  distance : Int
deriving DecidableEq, Repr

/-- A directions response: HTTP `res.ok`, the API `status` string, and the
routes (each collapsed to its first leg, the only part the source reads). -/
structure DirectionsResponse where
  httpOk : Bool
  status : String
  routes : List DirectionsLeg
deriving DecidableEq, Repr

/-- Durations and distance of one segment. -/
structure SegmentData where
  duration : Int
  durationInTraffic : Int
  distance : Int
deriving DecidableEq, Repr

/-- `getSegmentDuration`, validation part: throws on a non-OK HTTP response, a
non-OK API status, or an empty route list; otherwise reads the first leg.
`leg.duration_in_traffic?.value || leg.duration.value` falls back to the base
duration when the traffic value is absent or `0` (JS truthiness). -/
def getSegmentDuration (resp : DirectionsResponse) : Except String SegmentData :=
  if resp.httpOk = false then
    .error "Google Directions API request failed"
  else if resp.status ≠ "OK" then
    .error ("Google Directions API error: " ++ resp.status)
  else
    match resp.routes with
    | [] => .error "No routes found"
    | leg :: _ =>
      .ok ⟨leg.duration,
        (match leg.durationInTraffic with
          | some v => if v = 0 then leg.duration else v
          | none => leg.duration),
        leg.distance⟩

/-- Result of `refineRouteWithTraffic`. -/
structure RefinedRoute where
  orderedStops : List OptimizedStop
  totalDurationSeconds : Int
  totalDistanceMeters : Int
  trafficDelaySeconds : Int
deriving DecidableEq, Repr

/-- The per-segment loop of `refineRouteWithTraffic`, from previous location
`prevLoc` at clock `cur`: returns the refined entries, the clock after the
last stop, and the duration, distance and traffic-delay sums of the processed
segments. -/
def refineGo (fetchResp : Loc → Loc → Int → DirectionsResponse) (prevLoc : Loc) (cur : Int) :
    List OptimizedStop → Except String (List OptimizedStop × Int × Int × Int × Int)
  | [] => .ok ([], cur, 0, 0, 0)
  | stop :: rest => do
    let seg ← getSegmentDuration (fetchResp prevLoc (stop.lat, stop.lng) cur)
    let trafficDelay := max 0 (seg.durationInTraffic - seg.duration)
    let travelSeconds := seg.durationInTraffic
    let arrivalTime := cur + travelSeconds
    if stop.isDepotReturn then
      let entry := { stop with
        travelSecondsFromPrev := travelSeconds
        waitSecondsBeforeWindow := 0
        etaIso := arrivalTime
        arrivalDelayMinutes := 0 }
      let r ← refineGo fetchResp (stop.lat, stop.lng) arrivalTime rest
      .ok (entry :: r.1, r.2.1, travelSeconds + r.2.2.1, seg.distance + r.2.2.2.1,
        trafficDelay + r.2.2.2.2)
    else
      let windowStart := stop.timeWindowStart
      let windowEnd := stop.timeWindowEnd
      let waitSeconds := if arrivalTime < windowStart then windowStart - arrivalTime else 0
      let serviceStart := if 0 < waitSeconds then windowStart else arrivalTime
      let serviceTimeSeconds := stop.serviceMinutes * 60
      let serviceEnd := serviceStart + serviceTimeSeconds
      let entry := { stop with
        travelSecondsFromPrev := travelSeconds
        waitSecondsBeforeWindow := waitSeconds
        etaIso := arrivalTime
        arrivalDelayMinutes :=
          if 0 < waitSeconds then 0 else max 0 ((arrivalTime - windowEnd) / 60) }
      let r ← refineGo fetchResp (stop.lat, stop.lng) serviceEnd rest
      .ok (entry :: r.1, r.2.1, travelSeconds + waitSeconds + serviceTimeSeconds + r.2.2.1,
        seg.distance + r.2.2.2.1, trafficDelay + r.2.2.2.2)

/-- `refineRouteWithTraffic`: requires the API key, short-circuits on an empty
stop list, runs the per-segment loop from the depot, and appends a final
depot-return segment unless the last stop already is a depot return. -/
def refineRouteWithTraffic (apiKey : String) (fetchResp : Loc → Loc → Int → DirectionsResponse)
    (depot : Loc) (orderedStops : List OptimizedStop) (driverStartTime : Int) :
    Except String RefinedRoute :=
  if apiKey = "" then
    .error "GOOGLE_MAPS_API_KEY environment variable is required"
  else if orderedStops.isEmpty then
    .ok ⟨[], 0, 0, 0⟩
  else do
    let r ← refineGo fetchResp depot driverStartTime orderedStops
    match orderedStops.getLast? with
    | some lastStop =>
      if lastStop.isDepotReturn = false then
        let seg ← getSegmentDuration (fetchResp (lastStop.lat, lastStop.lng) depot r.2.1)
        .ok ⟨r.1, r.2.2.1 + seg.durationInTraffic, r.2.2.2.1 + seg.distance,
          r.2.2.2.2 + max 0 (seg.durationInTraffic - seg.duration)⟩
      else
        .ok ⟨r.1, r.2.2.1, r.2.2.2.1, r.2.2.2.2⟩
    | none => .ok ⟨r.1, r.2.2.1, r.2.2.2.1, r.2.2.2.2⟩

/-- Cost in cents of a duration in seconds at 30 per hour:
`Math.ceil(durationSeconds / 3600 * 30 * 100) / 100` with cents as the unit. -/
def costCentsOfDuration (durationSeconds : Int) : Int :=
  ceilDiv (durationSeconds * 30 * 100) 3600

/-- The multi-route loop of the traffic-refinement POST handler: each route is
refined starting when the previous one ends
(`routeStartTime += refined.totalDurationSeconds`).
The average cost per drop here divides by the count of all refined stops. -/
def refineMultiGo (apiKey : String) (fetchResp : Loc → Loc → Int → DirectionsResponse)
    (depot : Loc) : List RouteResult → Int → Except String (List RouteResult)
  | [], _ => .ok []
  | route :: rest, routeStartTime => do
    let refined ← refineRouteWithTraffic apiKey fetchResp depot route.stops routeStartTime
    let cost := costCentsOfDuration refined.totalDurationSeconds
    let rr : RouteResult :=
      ⟨route.id, refined.orderedStops, refined.totalDurationSeconds,
        refined.totalDistanceMeters, cost,
        if 0 < refined.orderedStops.length then ceilDiv cost refined.orderedStops.length else 0⟩
    let rest' ← refineMultiGo apiKey fetchResp depot rest
      (routeStartTime + refined.totalDurationSeconds)
    .ok (rr :: rest')

/-- The traffic-refinement POST handler in its multi-route branch: refines the
routes sequentially and returns the concatenated stops and summed totals. -/
def refineTrafficPOST (apiKey : String) (fetchResp : Loc → Loc → Int → DirectionsResponse)
    (depot : Loc) (routes : List RouteResult) (driverStartTime : Int) :
    Except String OptimizeResponse := do
  let rs ← refineMultiGo apiKey fetchResp depot routes driverStartTime
  .ok ⟨(rs.map (fun r => r.stops)).flatten,
    (rs.map (fun r => r.totalDistanceMeters)).sum,
    (rs.map (fun r => r.totalDurationSeconds)).sum,
    driverStartTime, rs⟩

/-! ## Time-slot batcher (batch-timeslots.ts and its optimize-batches POST) -/

/-- A time-slot batch. -/
structure TimeSlotBatch where
  slotName : String
  slotStart : Int
  slotEnd : Int
  stops : List Stop
deriving Repr

/-- `batchStopsByTimeSlot`: assign each stop to Morning [8,12), Afternoon
[12,16) or Evening [16,20) by its window-start hour (stops outside every band
are skipped), keeping only non-empty batches. -/
def batchStopsByTimeSlot (stops : List Stop) : List TimeSlotBatch :=
  let inBand (lo hi : Int) (s : Stop) : Bool :=
    decide (lo ≤ hourOfDay s.timeWindowStart ∧ hourOfDay s.timeWindowStart < hi)
  ([⟨"Morning", 8, 12, stops.filter (inBand 8 12)⟩,
    ⟨"Afternoon", 12, 16, stops.filter (inBand 12 16)⟩,
    ⟨"Evening", 16, 20, stops.filter (inBand 16 20)⟩]
    : List TimeSlotBatch).filter (fun b => 0 < b.stops.length)

/-- The per-batch ETA loop of the optimize-batches POST handler: walk the
solved order, accumulating travel, wait and the fixed 300-second service time;
the clock starts at the driver start time for every batch. -/
def batchGo (m : MatrixPair) (stops : List Stop) :
    List Nat → Nat → Int → List OptimizedStop × Int × Int
  | [], _, _ => ([], 0, 0)
  | oi :: rest, prevNode, cur =>
    let currIdx := oi + 1
    let travelTime := m.durationsSeconds prevNode currIdx
    let distance := m.distancesMeters prevNode currIdx
    let stop := stops.getD oi default
    let eta := cur + travelTime
    let waitTime := if eta < stop.timeWindowStart then stop.timeWindowStart - eta else 0
    let afterWait := if eta < stop.timeWindowStart then stop.timeWindowStart else eta
    let delay := max 0 ((eta - stop.timeWindowEnd + 30) / 60)
    let entry := stop.withTiming eta delay travelTime waitTime
    let r := batchGo m stops rest currIdx (afterWait + 300)
    (entry :: r.1, travelTime + waitTime + 300 + r.2.1, distance + r.2.2)

/-- The optimize-batches POST handler: batch the stops by time slot, solve and
simulate each batch independently (5-minute service per stop, per-batch matrix
from the external provider, modelled by `matrixOf`), then combine.  The source
accumulates `batchDuration` into the distance total (`totalDistance +=
batchDuration`), reproduced here verbatim. -/
def optimizeBatches (matrixOf : List Stop → MatrixPair) (stops : List Stop)
    (driverStartTime : Int) : Except String OptimizeResponse :=
  if stops.isEmpty then
    .error "INPUT_INVALID"
  else
    let batches := batchStopsByTimeSlot stops
    if batches.isEmpty then
      .error "INPUT_INVALID"
    else
      let results := batches.map (fun batch =>
        let m := matrixOf batch.stops
        let sol := solveVRPTW
          ⟨batch.stops.length, m.durationsSeconds, fun _ => 5,
            fun i => (batch.stops.getD i default).timeWindowStart,
            fun i => (batch.stops.getD i default).timeWindowEnd,
            some driverStartTime, false⟩
        let r := batchGo m batch.stops sol 0 driverStartTime
        let cost := costCentsOfDuration r.2.1
        (⟨"batch-" ++ batch.slotName.toLower, r.1, r.2.1, r.2.2, cost,
          if 0 < r.1.length then ceilDiv cost r.1.length else 0⟩ : RouteResult))
      .ok ⟨(results.map (fun r => r.stops)).flatten,
        (results.map (fun r => r.totalDurationSeconds)).sum,
        (results.map (fun r => r.totalDurationSeconds)).sum,
        driverStartTime, results⟩

/-! ## Shared lemmas -/

/-- A fold that scans candidates keeps its accumulator or establishes `P` of
any index it newly selects, so a selected index satisfies `P`. -/
theorem foldl_pick_invariant {α : Type} (P : Nat → Prop) :
    ∀ (l : List α) (op : Option Nat → α → Option Nat),
      (∀ b, ∀ a ∈ l, ∀ j, op b a = some j → b = some j ∨ P j) →
      ∀ (init : Option Nat), (∀ j, init = some j → P j) →
      ∀ j, l.foldl op init = some j → P j := by
  intro l
  induction l with
  | nil =>
    intro op _ init hinit j hj
    exact hinit j hj
  | cons a l ih =>
    intro op hop init hinit j hj
    refine ih op (fun b a' ha' => hop b a' (List.mem_cons_of_mem a ha')) (op init a) ?_ j hj
    intro j' hj'
    rcases hop init a (List.mem_cons_self a l) j' hj' with h | h
    · exact hinit j' h
    · exact h

/-- Any index selected by the plain scan is a fresh valid stop index. -/
theorem pickBest_mem (inp : SolveInput) (cur : Nat) (t : Int) (ord : List Nat) :
    ∀ j, pickBest inp cur t ord = some j → j < inp.n ∧ j ∉ ord := by
  intro j hj
  refine foldl_pick_invariant (fun j => j < inp.n ∧ j ∉ ord) (List.range inp.n) _ ?_ none
    (fun j h => by cases h) j hj
  intro b a ha j' hj'
  by_cases hmem : a ∈ ord
  · rw [if_pos hmem] at hj'
    exact Or.inl hj'
  · rw [if_neg hmem] at hj'
    cases b with
    | none =>
      cases hj'
      exact Or.inr ⟨List.mem_range.mp ha, hmem⟩
    | some b0 =>
      dsimp only at hj'
      by_cases hsc : scorePlain inp cur t a < scorePlain inp cur t b0
      · rw [if_pos hsc] at hj'
        cases hj'
        exact Or.inr ⟨List.mem_range.mp ha, hmem⟩
      · rw [if_neg hsc] at hj'
        exact Or.inl hj'

/-- Any index selected by the traffic-aware scan is a fresh valid stop index. -/
theorem pickBestTA_mem (inp : SolveInput) (cur : Nat) (t : Int) (ord : List Nat) :
    ∀ j, pickBestTA inp cur t ord = some j → j < inp.n ∧ j ∉ ord := by
  intro j hj
  refine foldl_pick_invariant (fun j => j < inp.n ∧ j ∉ ord) (List.range inp.n) _ ?_ none
    (fun j h => by cases h) j hj
  intro b a ha j' hj'
  by_cases hmem : a ∈ ord
  · rw [if_pos hmem] at hj'
    exact Or.inl hj'
  · rw [if_neg hmem] at hj'
    by_cases hfe : ¬ feasibleTA inp cur t a
    · rw [if_pos hfe] at hj'
      exact Or.inl hj'
    · rw [if_neg hfe] at hj'
      cases b with
      | none =>
        cases hj'
        exact Or.inr ⟨List.mem_range.mp ha, hmem⟩
      | some b0 =>
        dsimp only at hj'
        by_cases hsc : scoreTA2 inp cur t a < scoreTA2 inp cur t b0
        · rw [if_pos hsc] at hj'
          cases hj'
          exact Or.inr ⟨List.mem_range.mp ha, hmem⟩
        · rw [if_neg hsc] at hj'
          exact Or.inl hj'

/-- The plain solver loop preserves freedom from duplicates and validity of
all visited indices. -/
theorem solveGo_nodup_sub (inp : SolveInput) :
    ∀ (fuel cur : Nat) (t : Int) (ord : List Nat),
      ord.Nodup → (∀ j ∈ ord, j < inp.n) →
      (solveGo inp fuel cur t ord).Nodup ∧ ∀ j ∈ solveGo inp fuel cur t ord, j < inp.n := by
  intro fuel
  induction fuel with
  | zero =>
    intro cur t ord h1 h2
    exact ⟨h1, h2⟩
  | succ k ih =>
    intro cur t ord h1 h2
    rw [show solveGo inp (k + 1) cur t ord = (match pickBest inp cur t ord with
      | none => ord
      | some b =>
        solveGo inp k (b + 1)
          ((if t + inp.matrixSeconds cur (b + 1) < inp.winStart b then inp.winStart b
            else t + inp.matrixSeconds cur (b + 1)) + serviceSecOf inp b) (ord ++ [b]))
      from rfl]
    cases hpb : pickBest inp cur t ord with
    | none => exact ⟨h1, h2⟩
    | some b =>
      dsimp only
      obtain ⟨hbn, hbo⟩ := pickBest_mem inp cur t ord b hpb
      refine ih _ _ _ ?_ ?_
      · exact (List.nodup_append).mpr ⟨h1, List.nodup_singleton b, by
          intro a ha hb
          rcases List.mem_singleton.mp hb with rfl
          exact hbo ha⟩
      · intro j hj
        rcases List.mem_append.mp hj with h | h
        · exact h2 j h
        · rcases List.mem_singleton.mp h with rfl
          exact hbn

/-- The traffic-aware solver loop preserves freedom from duplicates and
validity of all visited indices. -/
theorem solveTAGo_nodup_sub (inp : SolveInput) :
    ∀ (fuel cur : Nat) (t : Int) (ord : List Nat),
      ord.Nodup → (∀ j ∈ ord, j < inp.n) →
      (solveTAGo inp fuel cur t ord).Nodup ∧ ∀ j ∈ solveTAGo inp fuel cur t ord, j < inp.n := by
  intro fuel
  induction fuel with
  | zero =>
    intro cur t ord h1 h2
    exact ⟨h1, h2⟩
  | succ k ih =>
    intro cur t ord h1 h2
    rw [show solveTAGo inp (k + 1) cur t ord = (match pickBestTA inp cur t ord with
      | none => ord
      | some b =>
        solveTAGo inp k (b + 1)
          (max (t + inp.matrixSeconds cur (b + 1)) (inp.winStart b) + serviceSecOf inp b)
          (ord ++ [b]))
      from rfl]
    cases hpb : pickBestTA inp cur t ord with
    | none => exact ⟨h1, h2⟩
    | some b =>
      dsimp only
      obtain ⟨hbn, hbo⟩ := pickBestTA_mem inp cur t ord b hpb
      refine ih _ _ _ ?_ ?_
      · exact (List.nodup_append).mpr ⟨h1, List.nodup_singleton b, by
          intro a ha hb
          rcases List.mem_singleton.mp hb with rfl
          exact hbo ha⟩
      · intro j hj
        rcases List.mem_append.mp hj with h | h
        · exact h2 j h
        · rcases List.mem_singleton.mp h with rfl
          exact hbn

/-- C1 (amended): for every input, the plain greedy solver `solveVRPTW`
returns a permutation of exactly the `n` input stop indices (no duplicates,
none missing: infeasible stops are deferred by the fallback append, never
dropped).  The traffic-aware variant `solveVRPTWTrafficAware` returns
duplicate-free valid stop indices, but — contrary to the original claim — it
has no fallback append, so a stop that cannot complete service within its
window in any remaining round is dropped from the output, not deferred. -/
theorem c1_solver_output_is_permutation (inp : SolveInput) :
    (solveVRPTW inp).Perm (List.range inp.n) ∧
    (solveVRPTWTrafficAware inp).Nodup ∧
    ∀ j ∈ solveVRPTWTrafficAware inp, j < inp.n := by
  refine ⟨?_, ?_⟩
  · show (let ord := solveGo inp inp.n 0 (initClockPlain inp) []
      if ord.length ≠ inp.n then
        ord ++ (List.range inp.n).filter (fun i => decide (i ∉ ord))
      else ord).Perm (List.range inp.n)
    obtain ⟨hnd, hsub⟩ := solveGo_nodup_sub inp inp.n 0 (initClockPlain inp) []
      List.nodup_nil (by intro j hj; cases hj)
    set ord := solveGo inp inp.n 0 (initClockPlain inp) [] with hord
    by_cases hl : ord.length ≠ inp.n
    · rw [if_pos hl]
      set filt := (List.range inp.n).filter (fun i => decide (i ∉ ord)) with hfilt
      have hndf : filt.Nodup := (List.nodup_range inp.n).filter _
      have hnd2 : (ord ++ filt).Nodup := by
        refine List.nodup_append.mpr ⟨hnd, hndf, ?_⟩
        intro a ha haf
        have := (List.mem_filter.mp haf).2
        exact (of_decide_eq_true this) ha
      have hsub2 : ord ++ filt ⊆ List.range inp.n := by
        intro j hj
        rcases List.mem_append.mp hj with h | h
        · exact List.mem_range.mpr (hsub j h)
        · exact (List.mem_filter.mp h).1
      have hsup : List.range inp.n ⊆ ord ++ filt := by
        intro j hj
        by_cases hjo : j ∈ ord
        · exact List.mem_append.mpr (Or.inl hjo)
        · refine List.mem_append.mpr (Or.inr ?_)
          exact List.mem_filter.mpr ⟨hj, decide_eq_true hjo⟩
      exact (hnd2.subperm hsub2).antisymm ((List.nodup_range inp.n).subperm hsup)
    · rw [if_neg hl]
      push_neg at hl
      refine (hnd.subperm ?_).perm_of_length_le ?_
      · intro j hj
        exact List.mem_range.mpr (hsub j hj)
      · rw [List.length_range, hl]
  · obtain ⟨hnd, hsub⟩ := solveTAGo_nodup_sub inp inp.n 0 (initClockTA inp) []
      List.nodup_nil (by intro j hj; cases hj)
    exact ⟨hnd, hsub⟩

/-- The input refuting the original C1 for the traffic-aware solver: one stop
whose 60-second service cannot complete inside its empty window. -/
def c1ex : SolveInput :=
  ⟨1, fun _ _ => 0, fun _ => 1, fun _ => 0, fun _ => 0, some 0, false⟩

/-- C1 (counterexample): on `c1ex` the traffic-aware solver returns the empty
order, which is not a permutation of the one input stop index — the infeasible
stop is silently dropped, not deferred. -/
theorem c1_counterexample :
    solveVRPTWTrafficAware c1ex = [] ∧
    ¬ (solveVRPTWTrafficAware c1ex).Perm (List.range c1ex.n) := by
  constructor
  · rfl
  · rw [show solveVRPTWTrafficAware c1ex = [] from rfl]
    decide

/-- A feasible one-stop input (window [0, 10000], one service minute). -/
def c1wex : SolveInput :=
  ⟨1, fun _ _ => 0, fun _ => 1, fun _ => 0, fun _ => 10000, some 0, false⟩

/-- C1 (witness): the amended theorem applied to a concrete feasible input;
the traffic-aware order contains stop 0, which is a valid index. -/
theorem c1_solver_output_is_permutation_witness :
    (solveVRPTW c1wex).Perm (List.range c1wex.n) ∧
    (solveVRPTWTrafficAware c1wex).Nodup ∧ (0 : Nat) < c1wex.n :=
  ⟨(c1_solver_output_is_permutation c1wex).1,
    (c1_solver_output_is_permutation c1wex).2.1,
    (c1_solver_output_is_permutation c1wex).2.2 0 (by decide)⟩

/-- C2: at any point of the current ETA simulation, a synthetic depot
round-trip is inserted before the stop at position `idx` exactly when the
computed wait before that stop exceeds 25 minutes, or (for `idx > 0`) the
coarse time period (morning 7-12, afternoon 12-16, evening 16-20) of this
window start differs from that of the previous stop; the synthetic entry is a
depot return with zero service time and travel time `matrix[current -> depot]`,
and the stop itself is then emitted unchanged with ETA exactly its window
start, zero wait and zero lateness. -/
theorem c2_depot_return_rule (p : EtaParams) (idx : Nat) (cur : Int) (prev : Nat)
    (_hidx : idx < p.orderedStops.length) :
    (25 * 60 <
        (if cur + p.durationsSeconds prev (p.originalIndices.getD idx 0 + 1) <
            (p.orderedStops.getD idx default).timeWindowStart then
          (p.orderedStops.getD idx default).timeWindowStart -
            (cur + p.durationsSeconds prev (p.originalIndices.getD idx 0 + 1))
        else 0) ∨
      (0 < idx ∧
        getTimePeriod (p.orderedStops.getD (idx - 1) default).timeWindowStart ≠
          getTimePeriod (p.orderedStops.getD idx default).timeWindowStart)) ↔
    (∃ d s,
      (etaStepCore true p idx cur prev).1 = [d, s] ∧
      d.isDepotReturn = true ∧
      d.serviceMinutes = 0 ∧
      d.travelSecondsFromPrev = p.durationsSeconds (p.originalIndices.getD idx 0 + 1) 0 ∧
      s.toStop = p.orderedStops.getD idx default ∧
      s.etaIso = (p.orderedStops.getD idx default).timeWindowStart ∧
      s.waitSecondsBeforeWindow = 0 ∧
      s.arrivalDelayMinutes = 0) := by
  clear _hidx
  unfold etaStepCore
  set stop := p.orderedStops.getD idx default with hstop
  set node := p.originalIndices.getD idx 0 + 1 with hnode
  set arrivalAtStop := cur + p.durationsSeconds prev node with harr
  set waitSeconds :=
    (if arrivalAtStop < stop.timeWindowStart then stop.timeWindowStart - arrivalAtStop else 0)
    with hwait
  by_cases hc : 1500 < waitSeconds ∨
      ((true : Bool) = true ∧ 0 < idx ∧
        isDifferentTimePeriod (p.orderedStops.getD (idx - 1) default).timeWindowStart
          stop.timeWindowStart)
  · rw [if_pos hc]
    constructor
    · intro _
      refine ⟨_, _, rfl, rfl, rfl, rfl, rfl, rfl, rfl, rfl⟩
    · intro _
      rcases hc with h | ⟨_, h1, h2⟩
      · exact Or.inl h
      · exact Or.inr ⟨h1, h2⟩
  · rw [if_neg hc]
    constructor
    · intro h
      exfalso
      apply hc
      rcases h with h | ⟨h1, h2⟩
      · exact Or.inl h
      · exact Or.inr ⟨rfl, h1, h2⟩
    · intro ⟨d, s, habs, _⟩
      cases habs

/-- The concrete input for the C2 witness: two stops, the first in the
morning period, the second in the afternoon period. -/
def c2ex : EtaParams :=
  ⟨7 * 3600, 0, 0,
    [⟨"a", "A", 1, 1, 8 * 3600, 9 * 3600, 5⟩, ⟨"b", "B", 2, 2, 13 * 3600, 14 * 3600, 5⟩],
    [0, 1], fun _ _ => 600, fun _ _ => 400⟩

/-- C2 (witness): the insertion rule instantiated at position 1 of `c2ex`,
where the periods differ. -/
theorem c2_depot_return_rule_witness :
    1 < c2ex.orderedStops.length ∧
    ((25 * 60 <
        (if (10 * 3600 : Int) + c2ex.durationsSeconds (c2ex.originalIndices.getD 1 0 + 1)
              (c2ex.originalIndices.getD 1 0 + 1) <
            (c2ex.orderedStops.getD 1 default).timeWindowStart then
          (c2ex.orderedStops.getD 1 default).timeWindowStart -
            (10 * 3600 + c2ex.durationsSeconds (c2ex.originalIndices.getD 1 0 + 1)
              (c2ex.originalIndices.getD 1 0 + 1))
        else 0) ∨
      (0 < 1 ∧
        getTimePeriod (c2ex.orderedStops.getD 0 default).timeWindowStart ≠
          getTimePeriod (c2ex.orderedStops.getD 1 default).timeWindowStart)) ↔
    (∃ d s,
      (etaStepCore true c2ex 1 (10 * 3600)
        (c2ex.originalIndices.getD 1 0 + 1)).1 = [d, s] ∧
      d.isDepotReturn = true ∧
      d.serviceMinutes = 0 ∧
      d.travelSecondsFromPrev = c2ex.durationsSeconds (c2ex.originalIndices.getD 1 0 + 1) 0 ∧
      s.toStop = c2ex.orderedStops.getD 1 default ∧
      s.etaIso = (c2ex.orderedStops.getD 1 default).timeWindowStart ∧
      s.waitSecondsBeforeWindow = 0 ∧
      s.arrivalDelayMinutes = 0)) :=
  ⟨by decide, c2_depot_return_rule c2ex 1 (10 * 3600)
    (c2ex.originalIndices.getD 1 0 + 1) (by decide)⟩

/-- The concrete input for C3: one stop with 10 service minutes, constant
travel time 100 seconds and constant distance 7 meters, no depot insertion. -/
def c3ex : EtaParams :=
  ⟨0, 0, 0, [⟨"s1", "S1", 1, 1, 0, 100000, 10⟩], [0], fun _ _ => 100, fun _ _ => 7⟩

/-- C3 (divergence, both simulator versions): on `c3ex` the simulator totals
only the travel segments (100 out, 100 back = 200 seconds) while the sum of
every travel, wait and service segment of its own output is 800 seconds — the
600 seconds of service time are not included in `totalDurationSeconds`. -/
theorem c3_total_duration_omits_service :
    (computeEtas c3ex).totalDurationSeconds = 200 ∧
    (computeEtasLegacy c3ex).totalDurationSeconds = 200 ∧
    ((computeEtas c3ex).orderedStops.map
      (fun e => e.travelSecondsFromPrev + e.waitSecondsBeforeWindow + e.serviceMinutes * 60)).sum
      = 800 ∧
    (computeEtas c3ex).totalDurationSeconds ≠
      ((computeEtas c3ex).orderedStops.map
        (fun e => e.travelSecondsFromPrev + e.waitSecondsBeforeWindow +
          e.serviceMinutes * 60)).sum := by
  refine ⟨rfl, rfl, rfl, by decide⟩

/-- Integer ceiling division agrees with the rational ceiling. -/
theorem ceilDiv_eq_ceil (a b : Int) (hb : 0 < b) : ceilDiv a b = ⌈(a : ℚ) / (b : ℚ)⌉ := by
  have hmod1 := Int.emod_nonneg (a + b - 1) (ne_of_gt hb)
  have hmod2 := Int.emod_lt_of_pos (a + b - 1) hb
  have hdm := Int.ediv_add_emod (a + b - 1) b
  have hbq : (0 : ℚ) < (b : ℚ) := by exact_mod_cast hb
  symm
  rw [Int.ceil_eq_iff]
  constructor
  · rw [lt_div_iff₀ hbq]
    have hexp : (ceilDiv a b - 1) * b = b * ((a + b - 1) / b) - b := by
      unfold ceilDiv
      ring
    have h : (ceilDiv a b - 1) * b < a := by
      rw [hexp]
      omega
    exact_mod_cast h
  · rw [div_le_iff₀ hbq]
    have hexp : ceilDiv a b * b = b * ((a + b - 1) / b) := by
      unfold ceilDiv
      ring
    have h : a ≤ ceilDiv a b * b := by
      rw [hexp]
      omega
    exact_mod_cast h

/-- The stops of a leg built by `createRouteResult` are the given ones. -/
theorem createRouteResult_stops (index : Nat) (stops : List OptimizedStop) :
    (createRouteResult index stops).stops = stops := rfl

/-- Concatenating the legs produced by the splitter loop reconstructs the
pending stops after the already-collected current leg. -/
theorem splitGo_flatten :
    ∀ (stops cur : List OptimizedStop) (idx : Nat),
      ((splitGo stops cur idx).map (fun r => r.stops)).flatten = cur ++ stops := by
  intro stops
  induction stops with
  | nil =>
    intro cur idx
    by_cases h : 0 < cur.length
    · simp [splitGo, h, createRouteResult_stops]
    · have : cur = [] := List.eq_nil_of_length_eq_zero (by omega)
      simp [splitGo, h, this]
  | cons stop rest ih =>
    intro cur idx
    by_cases h : stop.isDepotReturn
    · simp only [splitGo, if_pos h, List.map_cons, List.flatten_cons, createRouteResult_stops,
        ih [] (idx + 1), List.nil_append, List.append_assoc, List.singleton_append]
    · simp only [splitGo, if_neg h, ih (cur ++ [stop]) idx, List.append_assoc,
        List.singleton_append]

/-- Membership in `dropLast` of a cons. -/
theorem mem_dropLast_cons {α : Type} (a : α) (l : List α) (r : α) :
    r ∈ (a :: l).dropLast → r = a ∨ r ∈ l.dropLast := by
  cases l with
  | nil => intro h; cases h
  | cons b m =>
    intro h
    rcases List.mem_cons.mp h with h | h
    · exact Or.inl h
    · exact Or.inr h

/-- Every leg produced by the splitter loop other than the last ends with a
depot-return stop. -/
theorem splitGo_dropLast_depot :
    ∀ (stops cur : List OptimizedStop) (idx : Nat),
      ∀ r ∈ (splitGo stops cur idx).dropLast,
        ∃ e, r.stops.getLast? = some e ∧ e.isDepotReturn = true := by
  intro stops
  induction stops with
  | nil =>
    intro cur idx r hr
    by_cases h : 0 < cur.length
    · simp only [splitGo, if_pos h] at hr
      cases hr
    · simp only [splitGo, if_neg h] at hr
      cases hr
  | cons stop rest ih =>
    intro cur idx r hr
    by_cases h : stop.isDepotReturn
    · simp only [splitGo, if_pos h] at hr
      rcases mem_dropLast_cons _ _ _ hr with rfl | hr2
      · refine ⟨stop, ?_, h⟩
        rw [createRouteResult_stops, List.getLast?_append]
        rfl
      · exact ih [] (idx + 1) r hr2
    · simp only [splitGo, if_neg h] at hr
      exact ih (cur ++ [stop]) idx r hr

/-- C5: for every optimized stop sequence, concatenating the stop lists of the
routes produced by the splitter reconstructs exactly the input sequence, and
every produced route except possibly the final one ends with a stop whose
depot-return flag is set. -/
theorem c5_splitter_partition (stops : List OptimizedStop) :
    ((splitRoutes stops).map (fun r => r.stops)).flatten = stops ∧
    ∀ r ∈ (splitRoutes stops).dropLast,
      ∃ e, r.stops.getLast? = some e ∧ e.isDepotReturn = true := by
  constructor
  · exact splitGo_flatten stops [] 1
  · exact splitGo_dropLast_depot stops [] 1

/-- The concrete stop sequence for the C5 witness: a delivery, a depot return,
then a trailing delivery that forms the defensive final leg. -/
def c5ex : List OptimizedStop :=
  [⟨"a", "A", 1, 1, 0, 100, 5, 10, 0, 10, 0, false⟩,
   ⟨"depot-return-1", "Return to Depot", 0, 0, 20, 20, 0, 20, 0, 10, 0, true⟩,
   ⟨"b", "B", 2, 2, 0, 100, 5, 40, 0, 10, 0, false⟩]

/-- C5 (witness): the partition theorem at `c5ex`; the first produced route is
in `dropLast` and indeed ends with the depot-return stop. -/
theorem c5_splitter_partition_witness :
    ((splitRoutes c5ex).map (fun r => r.stops)).flatten = c5ex ∧
    ∃ e, ((splitRoutes c5ex).dropLast.getD 0 (createRouteResult 0 [])).stops.getLast? = some e ∧
      e.isDepotReturn = true :=
  ⟨(c5_splitter_partition c5ex).1,
    (c5_splitter_partition c5ex).2 ((splitRoutes c5ex).dropLast.getD 0 (createRouteResult 0 []))
      (by decide)⟩

/-- C6: for every leg, the splitter computes the leg duration as the sum over
its stops of travel + wait + 60 * serviceMinutes seconds; the estimated cost
(in cents) is the ceiling of duration-in-hours x 30 x 100; and the average
cost per drop is the cost divided by the number of non-depot-return stops,
rounded up to cents, with 0 when that number is 0 (no division by zero). -/
theorem c6_route_cost_formulas (index : Nat) (stops : List OptimizedStop) :
    (createRouteResult index stops).totalDurationSeconds =
      (stops.map (fun s =>
        s.travelSecondsFromPrev + s.waitSecondsBeforeWindow + s.serviceMinutes * 60)).sum ∧
    (createRouteResult index stops).estimatedCost =
      ⌈(((createRouteResult index stops).totalDurationSeconds : ℚ) / 3600) * 30 * 100⌉ ∧
    (createRouteResult index stops).averageCostPerDrop =
      (if 0 < (stops.filter (fun s => ¬ s.isDepotReturn)).length then
        ⌈((createRouteResult index stops).estimatedCost : ℚ) /
          ((stops.filter (fun s => ¬ s.isDepotReturn)).length : ℚ)⌉
      else 0) := by
  have hfold : ∀ (l : List OptimizedStop) (a : Int),
      l.foldl (fun acc s =>
        acc + (s.travelSecondsFromPrev + s.waitSecondsBeforeWindow + s.serviceMinutes * 60)) a =
      a + (l.map (fun s =>
        s.travelSecondsFromPrev + s.waitSecondsBeforeWindow + s.serviceMinutes * 60)).sum := by
    intro l
    induction l with
    | nil => intro a; simp
    | cons x xs ih =>
      intro a
      simp only [List.foldl_cons, List.map_cons, List.sum_cons, ih]
      ring
  have hdur : (createRouteResult index stops).totalDurationSeconds =
      (stops.map (fun s =>
        s.travelSecondsFromPrev + s.waitSecondsBeforeWindow + s.serviceMinutes * 60)).sum := by
    show stops.foldl (fun acc s =>
      acc + (s.travelSecondsFromPrev + s.waitSecondsBeforeWindow + s.serviceMinutes * 60)) 0 = _
    rw [hfold, zero_add]
  have hcost : (createRouteResult index stops).estimatedCost =
      ceilDiv ((createRouteResult index stops).totalDurationSeconds * 30 * 100) 3600 := rfl
  have havg : (createRouteResult index stops).averageCostPerDrop =
      (if 0 < (stops.filter (fun s => ¬ s.isDepotReturn)).length then
        ceilDiv (createRouteResult index stops).estimatedCost
          ((stops.filter (fun s => ¬ s.isDepotReturn)).length : Int)
      else 0) := rfl
  refine ⟨hdur, ?_, ?_⟩
  · rw [hcost, ceilDiv_eq_ceil _ _ (by norm_num)]
    congr 1
    push_cast
    ring
  · rw [havg]
    by_cases hdc : 0 < (stops.filter (fun s => ¬ s.isDepotReturn)).length
    · rw [if_pos hdc, if_pos hdc, ceilDiv_eq_ceil _ _ (by exact_mod_cast hdc)]
      try congr 1
      try push_cast
      try ring
    · rw [if_neg hdc, if_neg hdc]

/-- Bind of a success computes the continuation. -/
theorem except_bind_ok {ε α β : Type} (a : α) (f : α → Except ε β) :
    (Except.ok a >>= f) = f a := rfl

/-- Bind of an error propagates the error. -/
theorem except_bind_error {ε α β : Type} (e : ε) (f : α → Except ε β) :
    ((Except.error e : Except ε α) >>= f) = Except.error e := rfl

/-- The clock from which the refinement loop departs toward the rest of the
route after processing one stop: transit only for a depot-return stop,
otherwise service completion (waiting for the window to open if the arrival
precedes it). -/
def refineNextClock (stop : OptimizedStop) (seg : SegmentData) (cur : Int) : Int :=
  let arrivalTime := cur + seg.durationInTraffic
  if stop.isDepotReturn then arrivalTime
  else
    let waitSeconds :=
      if arrivalTime < stop.timeWindowStart then stop.timeWindowStart - arrivalTime else 0
    (if 0 < waitSeconds then stop.timeWindowStart else arrivalTime) + stop.serviceMinutes * 60

/-- C7: a failing live-directions query for any segment is fatal for the
refinement call.  Part 1: a non-OK HTTP response, a non-OK API status, or an
empty route list makes `getSegmentDuration` an error, producing no segment
data.  Part 2: a failing query for the current segment makes the refinement
loop an error at any state.  Part 3: an error arising anywhere in the rest of
the route propagates through the current segment, so by induction a failure
at any position reaches the top.  Part 4: an erroring loop makes the whole
`refineRouteWithTraffic` call an error.  Part 5: a failing final depot-return
query also makes the whole call an error.  In every case no refined result is
produced and no static matrix value is substituted (no matrix is even
available to this pass). -/
theorem c7_refinement_fails_loudly :
    (∀ resp : DirectionsResponse,
      resp.httpOk = false ∨ resp.status ≠ "OK" ∨ resp.routes = [] →
      ∃ e, getSegmentDuration resp = .error e) ∧
    (∀ (fetchResp : Loc → Loc → Int → DirectionsResponse) (prevLoc : Loc) (cur : Int)
      (stop : OptimizedStop) (rest : List OptimizedStop) (e : String),
      getSegmentDuration (fetchResp prevLoc (stop.lat, stop.lng) cur) = .error e →
      refineGo fetchResp prevLoc cur (stop :: rest) = .error e) ∧
    (∀ (fetchResp : Loc → Loc → Int → DirectionsResponse) (prevLoc : Loc) (cur : Int)
      (stop : OptimizedStop) (rest : List OptimizedStop) (seg : SegmentData) (e : String),
      getSegmentDuration (fetchResp prevLoc (stop.lat, stop.lng) cur) = .ok seg →
      refineGo fetchResp (stop.lat, stop.lng) (refineNextClock stop seg cur) rest = .error e →
      refineGo fetchResp prevLoc cur (stop :: rest) = .error e) ∧
    (∀ (apiKey : String) (fetchResp : Loc → Loc → Int → DirectionsResponse) (depot : Loc)
      (stops : List OptimizedStop) (start : Int) (e : String),
      stops ≠ [] →
      refineGo fetchResp depot start stops = .error e →
      ∃ e2, refineRouteWithTraffic apiKey fetchResp depot stops start = .error e2) ∧
    (∀ (apiKey : String) (fetchResp : Loc → Loc → Int → DirectionsResponse) (depot : Loc)
      (stops : List OptimizedStop) (start : Int) (out : List OptimizedStop)
      (endT dur dist dl : Int) (lastStop : OptimizedStop) (e : String),
      refineGo fetchResp depot start stops = .ok (out, endT, dur, dist, dl) →
      stops.getLast? = some lastStop →
      lastStop.isDepotReturn = false →
      getSegmentDuration (fetchResp (lastStop.lat, lastStop.lng) depot endT) = .error e →
      ∃ e2, refineRouteWithTraffic apiKey fetchResp depot stops start = .error e2) := by
  refine ⟨?_, ?_, ?_, ?_, ?_⟩
  · intro resp h
    unfold getSegmentDuration
    by_cases h1 : resp.httpOk = false
    · rw [if_pos h1]
      exact ⟨_, rfl⟩
    · rw [if_neg h1]
      by_cases h2 : resp.status ≠ "OK"
      · rw [if_pos h2]
        exact ⟨_, rfl⟩
      · rw [if_neg h2]
        rcases h with h | h | h
        · exact absurd h h1
        · exact absurd h h2
        · rw [h]
          exact ⟨_, rfl⟩
  · intro fetchResp prevLoc cur stop rest e he
    rw [refineGo, he, except_bind_error]
  · intro fetchResp prevLoc cur stop rest seg e hok hrec
    rw [refineGo, hok, except_bind_ok]
    dsimp only
    by_cases hdep : stop.isDepotReturn = true
    · rw [if_pos hdep]
      rw [show refineNextClock stop seg cur = cur + seg.durationInTraffic from by
        simp only [refineNextClock, if_pos hdep]] at hrec
      rw [hrec, except_bind_error]
    · rw [if_neg hdep]
      rw [show refineNextClock stop seg cur =
          (if 0 < (if cur + seg.durationInTraffic < stop.timeWindowStart then
              stop.timeWindowStart - (cur + seg.durationInTraffic) else 0) then
            stop.timeWindowStart else cur + seg.durationInTraffic) +
            stop.serviceMinutes * 60 from by
        simp only [refineNextClock, if_neg hdep]] at hrec
      rw [hrec, except_bind_error]
  · intro apiKey fetchResp depot stops start e hne hgo
    cases stops with
    | nil => exact absurd rfl hne
    | cons s rest =>
      unfold refineRouteWithTraffic
      by_cases hkey : apiKey = ""
      · rw [if_pos hkey]
        exact ⟨_, rfl⟩
      · rw [if_neg hkey]
        rw [if_neg (by simp : ¬ ((s :: rest).isEmpty = true))]
        refine ⟨e, ?_⟩
        rw [hgo, except_bind_error]
  · intro apiKey fetchResp depot stops start out endT dur dist dl lastStop e hgo hlast hld hfin
    cases stops with
    | nil => cases hlast
    | cons s rest =>
      unfold refineRouteWithTraffic
      by_cases hkey : apiKey = ""
      · rw [if_pos hkey]
        exact ⟨_, rfl⟩
      · rw [if_neg hkey]
        rw [if_neg (by simp : ¬ ((s :: rest).isEmpty = true))]
        refine ⟨e, ?_⟩
        rw [hgo, except_bind_ok]
        dsimp only
        rw [hlast]
        dsimp only
        rw [if_pos hld, hfin, except_bind_error]

/-- A directions response with HTTP success but a non-OK API status. -/
def c7resp : DirectionsResponse :=
  ⟨true, "ZERO_RESULTS", []⟩

/-- A plain delivery stop for the C7 witness (window [0, 100], 5 service
minutes, at coordinate (1, 1)). -/
def c7stop : OptimizedStop :=
  ⟨"x", "X", 1, 1, 0, 100, 5, 0, 0, 0, 0, false⟩

/-- Second stop of the two-stop C7 witness route, at coordinate (2, 2). -/
def c7stop2 : OptimizedStop :=
  ⟨"y", "Y", 2, 2, 0, 100, 5, 0, 0, 0, 0, false⟩

/-- The good constant response of the C7 witness oracles: 120 traffic seconds
(100 base) over 500 meters. -/
def c7good : DirectionsResponse :=
  ⟨true, "OK", [⟨100, some 120, 500⟩]⟩

/-- An oracle that fails every query. -/
def c7fetchBad : Loc → Loc → Int → DirectionsResponse :=
  fun _ _ _ => c7resp

/-- An oracle that succeeds only at departure time 0: on the witness route the
first segment query succeeds and the second one (departing at 420) fails. -/
def c7fetchSecond : Loc → Loc → Int → DirectionsResponse :=
  fun _ _ t => if t = 0 then c7good else c7resp

/-- An oracle that fails exactly at departure time 420: on the one-stop
witness route every segment query succeeds and only the final depot-return
query (departing at 420) fails. -/
def c7fetchFinal : Loc → Loc → Int → DirectionsResponse :=
  fun _ _ t => if t = 420 then c7resp else c7good

/-- The error text produced for the failing responses of the C7 witness. -/
def c7errMsg : String :=
  "Google Directions API error: ZERO_RESULTS"

/-- The refined entry for `c7stop` under the good response from clock 0. -/
def c7entry : OptimizedStop :=
  ⟨"x", "X", 1, 1, 0, 100, 5, 120, 0, 120, 0, false⟩

/-- C7 (witness): the failure theorem exercised at concrete inputs — a bad
response fails validation; a first-segment failure, a second-segment failure
and a failing final depot-return query each make the refinement call error. -/
theorem c7_refinement_fails_loudly_witness :
    (c7resp.httpOk = false ∨ c7resp.status ≠ "OK" ∨ c7resp.routes = []) ∧
    (∃ e, getSegmentDuration c7resp = .error e) ∧
    refineGo c7fetchBad (0, 0) 0 [c7stop, c7stop2] = .error c7errMsg ∧
    refineGo c7fetchSecond (0, 0) 0 [c7stop, c7stop2] = .error c7errMsg ∧
    (∃ e2, refineRouteWithTraffic "key" c7fetchSecond (0, 0) [c7stop, c7stop2] 0 = .error e2) ∧
    (∃ e2, refineRouteWithTraffic "key" c7fetchFinal (0, 0) [c7stop] 0 = .error e2) := by
  refine ⟨Or.inr (Or.inl (by decide)),
    c7_refinement_fails_loudly.1 c7resp (Or.inr (Or.inl (by decide))),
    c7_refinement_fails_loudly.2.1 c7fetchBad (0, 0) 0 c7stop [c7stop2] c7errMsg rfl,
    c7_refinement_fails_loudly.2.2.1 c7fetchSecond (0, 0) 0 c7stop [c7stop2]
      ⟨100, 120, 500⟩ c7errMsg rfl rfl,
    c7_refinement_fails_loudly.2.2.2.1 "key" c7fetchSecond (0, 0) [c7stop, c7stop2] 0
      c7errMsg (by decide)
      (c7_refinement_fails_loudly.2.2.1 c7fetchSecond (0, 0) 0 c7stop [c7stop2]
        ⟨100, 120, 500⟩ c7errMsg rfl rfl),
    c7_refinement_fails_loudly.2.2.2.2 "key" c7fetchFinal (0, 0) [c7stop] 0
      [c7entry] 420 420 500 20 c7stop c7errMsg rfl rfl rfl rfl⟩

/-- A minimum of a fold below the seed and every element. -/
theorem foldl_min_le :
    ∀ (l : List Int) (a : Int), l.foldl min a ≤ a ∧ ∀ b ∈ l, l.foldl min a ≤ b := by
  intro l
  induction l with
  | nil =>
    intro a
    exact ⟨le_refl a, by intro b hb; cases hb⟩
  | cons x xs ih =>
    intro a
    constructor
    · exact le_trans (ih (min a x)).1 (min_le_left a x)
    · intro b hb
      rcases List.mem_cons.mp hb with rfl | hb
      · exact le_trans (ih (min a b)).1 (min_le_right a b)
      · exact (ih (min a x)).2 b hb

/-- `min?.getD` is below every member of the list. -/
theorem getD_min?_le (l : List Int) (a : Int) (h : a ∈ l) : l.min?.getD 0 ≤ a := by
  cases l with
  | nil => cases h
  | cons x xs =>
    show xs.foldl min x ≤ a
    rcases List.mem_cons.mp h with rfl | h2
    · exact (foldl_min_le xs a).1
    · exact (foldl_min_le xs x).2 a h2

/-- The two inputs refuting C8: identical except for their windows, neither
supplying a start time. -/
def c8exA : SolveInput :=
  ⟨1, fun _ _ => 0, fun _ => 5, fun _ => 36000, fun _ => 72000, none, false⟩

/-- Same as `c8exA` with the window shifted by ten hours. -/
def c8exB : SolveInput :=
  ⟨1, fun _ _ => 0, fun _ => 5, fun _ => 72000, fun _ => 108000, none, false⟩

/-- C8 (counterexample): with no start time supplied, the initial simulated
clock of the plain solver is the fixed epoch value `0` for two inputs whose
earliest window starts differ — so it is not derived from the earliest window
(in particular it is neither the earliest window start nor that start minus
one hour). -/
theorem c8_counterexample :
    initClockPlain c8exA = 0 ∧ initClockPlain c8exB = 0 ∧
    earliestWinStart c8exA = 36000 ∧ earliestWinStart c8exB = 72000 ∧
    initClockPlain c8exA ≠ earliestWinStart c8exA ∧
    initClockPlain c8exA ≠ earliestWinStart c8exA - 3600 := by
  refine ⟨rfl, rfl, rfl, rfl, by decide, by decide⟩

/-- C8 (amended): when no explicit start time is supplied, the plain solver
`solveVRPTW` initializes its simulated clock to the fixed epoch clock `0`; it
is the traffic-aware variant that derives the default from the earliest
window, namely the earliest window start minus one hour, which is at most
every window start minus one hour. -/
theorem c8_default_start_clock (inp : SolveInput) (h : inp.startTime = none) :
    initClockPlain inp = 0 ∧
    initClockTA inp = earliestWinStart inp - 3600 ∧
    ∀ i < inp.n, initClockTA inp ≤ inp.winStart i - 3600 := by
  refine ⟨?_, ?_, ?_⟩
  · unfold initClockPlain
    rw [h]
  · unfold initClockTA
    rw [h]
  · intro i hi
    unfold initClockTA
    rw [h]
    have hmem : inp.winStart i ∈ (List.range inp.n).map inp.winStart :=
      List.mem_map.mpr ⟨i, List.mem_range.mpr hi, rfl⟩
    have h2 : earliestWinStart inp ≤ inp.winStart i := getD_min?_le _ _ hmem
    dsimp only
    omega

/-- C8 (witness): the amended default-clock theorem at `c8exA`. -/
theorem c8_default_start_clock_witness :
    c8exA.startTime = none ∧
    initClockPlain c8exA = 0 ∧
    initClockTA c8exA = earliestWinStart c8exA - 3600 ∧
    initClockTA c8exA ≤ c8exA.winStart 0 - 3600 :=
  ⟨rfl, (c8_default_start_clock c8exA rfl).1, (c8_default_start_clock c8exA rfl).2.1,
    (c8_default_start_clock c8exA rfl).2.2 0 (by decide)⟩

/-- Unrolling one simulator iteration. -/
theorem stateAfter_succ (periodRule : Bool) (p : EtaParams) (i : Nat) :
    stateAfter periodRule p (i + 1) = etaStep periodRule p (stateAfter periodRule p i) i := by
  unfold stateAfter
  rw [List.range_succ, List.foldl_append]
  rfl

/-- The entries a simulator step emits. -/
theorem etaStep_acc (periodRule : Bool) (p : EtaParams) (s : EtaState) (idx : Nat) :
    (etaStep periodRule p s idx).acc =
      s.acc ++ (etaStepCore periodRule p idx s.currentTime s.prevMatrixNode).1 := rfl

/-- Each simulator step emits exactly one non-depot-return entry, and that
entry is the processed stop with timing fields attached. -/
theorem etaStepCore_filter (periodRule : Bool) (p : EtaParams) (idx : Nat) (cur : Int)
    (prev : Nat) :
    (((etaStepCore periodRule p idx cur prev).1.filter
      (fun e => ¬ e.isDepotReturn)).map OptimizedStop.toStop) =
      [p.orderedStops.getD idx default] := by
  simp only [etaStepCore]
  split <;> (try split) <;> rfl

/-- After `i` simulator iterations, the non-depot-return entries are exactly
the first `i` stops of the visiting order, unchanged and in order. -/
theorem stateAfter_filter (periodRule : Bool) (p : EtaParams) :
    ∀ i, i ≤ p.orderedStops.length →
      (((stateAfter periodRule p i).acc.filter
        (fun e => ¬ e.isDepotReturn)).map OptimizedStop.toStop) =
        p.orderedStops.take i := by
  intro i
  induction i with
  | zero =>
    intro _
    rfl
  | succ k ih =>
    intro hk
    have hklen : k < p.orderedStops.length := Nat.lt_of_succ_le hk
    rw [stateAfter_succ, etaStep_acc, List.filter_append, List.map_append,
      ih (Nat.le_of_lt hklen), etaStepCore_filter, List.take_succ]
    congr 1
    rw [List.getElem?_eq_getElem hklen]
    rw [List.getD_eq_getElem _ _ hklen]
    rfl

/-- C10: for every input, removing the depot-return entries from either ETA
simulator output leaves exactly one entry per input stop, in the visiting
order, with the identity fields (id, name, coordinates, window, service
minutes) unchanged — the simulator only adds timing fields and never drops,
duplicates or reorders real stops. -/
theorem c10_simulator_frame (p : EtaParams) :
    (((computeEtas p).orderedStops.filter
      (fun e => ¬ e.isDepotReturn)).map OptimizedStop.toStop = p.orderedStops) ∧
    (((computeEtasLegacy p).orderedStops.filter
      (fun e => ¬ e.isDepotReturn)).map OptimizedStop.toStop = p.orderedStops) := by
  have hmain : ∀ periodRule : Bool,
      ((computeEtasAux periodRule p).orderedStops.filter
        (fun e => ¬ e.isDepotReturn)).map OptimizedStop.toStop = p.orderedStops := by
    intro periodRule
    simp only [computeEtasAux]
    have hfin := stateAfter_filter periodRule p p.orderedStops.length (Nat.le_refl _)
    split
    · show ((((stateAfter periodRule p p.orderedStops.length).acc ++ _).filter
        (fun e => ¬ e.isDepotReturn)).map OptimizedStop.toStop) = _
      rw [List.filter_append, List.map_append, hfin, List.take_length]
      show p.orderedStops ++ ((List.filter _ [_]).map _) = p.orderedStops
      rw [show List.filter (fun e => decide ¬ e.isDepotReturn = true)
        [(⟨"depot-return-final", "Return to Depot", p.depotLat, p.depotLng, _, _, 0, _, 0, _, 0,
          true⟩ : OptimizedStop)] = [] from rfl]
      rw [List.map_nil, List.append_nil]
    · show (((stateAfter periodRule p p.orderedStops.length).acc.filter
        (fun e => ¬ e.isDepotReturn)).map OptimizedStop.toStop) = _
      rw [hfin, List.take_length]
  exact ⟨hmain true, hmain false⟩

/-- The single morning stop of the C9 input (window 09:00-12:00). -/
def c9stop : Stop :=
  ⟨"a", "A", 5, 5, 32400, 43200, 7⟩

/-- The C9 matrix: 100 seconds and 999 meters between distinct nodes. -/
def c9matrix : MatrixPair :=
  ⟨fun i j => if i = j then 0 else 100, fun i j => if i = j then 0 else 999⟩

/-- C9 (divergence): on a one-stop morning batch, the per-band route duration
is 400 seconds (100 travel + 300 service) and the per-band route distance is
999 meters, and the final response does sum the durations and concatenation is
correct — but `totalDistanceMeters` is 400, the sum of the band durations, not
999, the sum of the band distances (`totalDistance += batchDuration` in the
source). -/
theorem c9_batcher_distance_total_bug :
    (optimizeBatches (fun _ => c9matrix) [c9stop] 32400).map
      (fun r => (r.totalDistanceMeters,
        (r.routes.map (fun x => x.totalDistanceMeters)).sum,
        r.totalDurationSeconds,
        (r.routes.map (fun x => x.totalDurationSeconds)).sum,
        r.orderedStops.length)) =
      Except.ok (400, 999, 400, 400, 1) ∧
    (400 : Int) ≠ 999 :=
  ⟨rfl, by decide⟩

/-- Main invariant of the traffic-refinement segment loop: on success the
final clock is the start clock plus the accumulated duration, the duration is
non-negative, and every refined ETA lies between the start clock and the final
clock (given non-negative segment durations and service times). -/
theorem refineGo_invariant (fetchResp : Loc → Loc → Int → DirectionsResponse)
    (hseg : ∀ o d t s, getSegmentDuration (fetchResp o d t) = .ok s → 0 ≤ s.durationInTraffic) :
    ∀ (stops : List OptimizedStop) (prevLoc : Loc) (cur : Int)
      (out : List OptimizedStop) (endT dur dist dl : Int),
      (∀ st ∈ stops, 0 ≤ st.serviceMinutes) →
      refineGo fetchResp prevLoc cur stops = .ok (out, endT, dur, dist, dl) →
      endT = cur + dur ∧ 0 ≤ dur ∧ ∀ e ∈ out, cur ≤ e.etaIso ∧ e.etaIso ≤ endT := by
  intro stops
  induction stops with
  | nil =>
    intro prevLoc cur out endT dur dist dl _ heq
    simp only [refineGo, Except.ok.injEq, Prod.mk.injEq] at heq
    obtain ⟨h1, h2, h3, h4, h5⟩ := heq
    subst h1 h2 h3
    exact ⟨by omega, le_refl 0, by intro e he; cases he⟩
  | cons stop rest ih =>
    intro prevLoc cur out endT dur dist dl hsvc heq
    have hsvc0 : 0 ≤ stop.serviceMinutes := hsvc stop (List.mem_cons_self stop rest)
    have hsvcr : ∀ st ∈ rest, 0 ≤ st.serviceMinutes :=
      fun st hst => hsvc st (List.mem_cons_of_mem stop hst)
    rw [refineGo] at heq
    cases hg : getSegmentDuration (fetchResp prevLoc (stop.lat, stop.lng) cur) with
    | error e =>
      rw [hg, except_bind_error] at heq
      cases heq
    | ok seg =>
      have htr : 0 ≤ seg.durationInTraffic := hseg _ _ _ _ hg
      rw [hg, except_bind_ok] at heq
      dsimp only at heq
      by_cases hdep : stop.isDepotReturn = true
      · rw [if_pos hdep] at heq
        cases hr : refineGo fetchResp (stop.lat, stop.lng) (cur + seg.durationInTraffic) rest with
        | error e =>
          rw [hr, except_bind_error] at heq
          cases heq
        | ok val =>
          obtain ⟨es, endT2, d2, ds2, dl2⟩ := val
          rw [hr, except_bind_ok] at heq
          simp only [Except.ok.injEq, Prod.mk.injEq] at heq
          obtain ⟨hout, hend, hdur, hdist, hdl⟩ := heq
          obtain ⟨ih1, ih2, ih3⟩ :=
            ih (stop.lat, stop.lng) (cur + seg.durationInTraffic) es endT2 d2 ds2 dl2 hsvcr hr
          subst hout hend hdur
          refine ⟨by omega, by omega, ?_⟩
          intro e he
          rcases List.mem_cons.mp he with rfl | he2
          · constructor
            · show cur ≤ cur + seg.durationInTraffic
              omega
            · show cur + seg.durationInTraffic ≤ endT2
              omega
          · obtain ⟨ha, hb⟩ := ih3 e he2
            exact ⟨by omega, hb⟩
      · rw [if_neg hdep] at heq
        cases hr : refineGo fetchResp (stop.lat, stop.lng)
          ((if 0 < (if cur + seg.durationInTraffic < stop.timeWindowStart then
              stop.timeWindowStart - (cur + seg.durationInTraffic) else 0) then
            stop.timeWindowStart else cur + seg.durationInTraffic) +
            stop.serviceMinutes * 60) rest with
        | error e =>
          rw [hr, except_bind_error] at heq
          cases heq
        | ok val =>
          obtain ⟨es, endT2, d2, ds2, dl2⟩ := val
          rw [hr, except_bind_ok] at heq
          simp only [Except.ok.injEq, Prod.mk.injEq] at heq
          obtain ⟨hout, hend, hdur, hdist, hdl⟩ := heq
          obtain ⟨ih1, ih2, ih3⟩ := ih (stop.lat, stop.lng) _ es endT2 d2 ds2 dl2 hsvcr hr
          subst hout hend hdur
          set wait := (if cur + seg.durationInTraffic < stop.timeWindowStart then
            stop.timeWindowStart - (cur + seg.durationInTraffic) else 0) with hwait
          have hwnn : 0 ≤ wait := by
            rw [hwait]
            split <;> omega
          have hstart : (if 0 < wait then stop.timeWindowStart else cur + seg.durationInTraffic) =
              cur + seg.durationInTraffic + wait := by
            rw [hwait]
            by_cases hlt : cur + seg.durationInTraffic < stop.timeWindowStart
            · rw [if_pos hlt,
                if_pos (by omega : (0:Int) < stop.timeWindowStart - (cur + seg.durationInTraffic))]
              omega
            · rw [if_neg hlt, if_neg (by omega : ¬ (0:Int) < 0)]
              omega
          rw [hstart] at ih1
          refine ⟨by omega, by omega, ?_⟩
          intro e he
          rcases List.mem_cons.mp he with rfl | he2
          · constructor
            · show cur ≤ cur + seg.durationInTraffic
              omega
            · show cur + seg.durationInTraffic ≤ endT2
              omega
          · obtain ⟨ha, hb⟩ := ih3 e he2
            exact ⟨by omega, hb⟩

/-- On success, the refined route has a non-negative total duration and every
refined ETA lies between the leg start time and the leg start time plus total
duration. -/
theorem refineRoute_eta_bounds (apiKey : String)
    (fetchResp : Loc → Loc → Int → DirectionsResponse) (depot : Loc)
    (stops : List OptimizedStop) (start : Int) (r : RefinedRoute)
    (hseg : ∀ o d t s, getSegmentDuration (fetchResp o d t) = .ok s → 0 ≤ s.durationInTraffic)
    (hsvc : ∀ st ∈ stops, 0 ≤ st.serviceMinutes)
    (h : refineRouteWithTraffic apiKey fetchResp depot stops start = .ok r) :
    0 ≤ r.totalDurationSeconds ∧
    ∀ e ∈ r.orderedStops, start ≤ e.etaIso ∧ e.etaIso ≤ start + r.totalDurationSeconds := by
  unfold refineRouteWithTraffic at h
  by_cases hkey : apiKey = ""
  · rw [if_pos hkey] at h
    cases h
  · rw [if_neg hkey] at h
    by_cases hemp : stops.isEmpty = true
    · rw [if_pos hemp] at h
      simp only [Except.ok.injEq] at h
      subst h
      exact ⟨le_refl 0, by intro e he; cases he⟩
    · rw [if_neg hemp] at h
      cases hgo : refineGo fetchResp depot start stops with
      | error e =>
        rw [hgo, except_bind_error] at h
        cases h
      | ok val =>
        obtain ⟨out, endT, dur, dist, dl⟩ := val
        obtain ⟨hv1, hv2, hv3⟩ :=
          refineGo_invariant fetchResp hseg stops depot start out endT dur dist dl hsvc hgo
        rw [hgo, except_bind_ok] at h
        dsimp only at h
        cases hlast : stops.getLast? with
        | none =>
          rw [hlast] at h
          simp only [Except.ok.injEq] at h
          subst h
          refine ⟨hv2, ?_⟩
          intro e he
          obtain ⟨ha, hb⟩ := hv3 e he
          exact ⟨ha, by dsimp only; omega⟩
        | some lastStop =>
          rw [hlast] at h
          dsimp only at h
          by_cases hld : lastStop.isDepotReturn = false
          · rw [if_pos hld] at h
            cases hseg2 : getSegmentDuration (fetchResp (lastStop.lat, lastStop.lng) depot endT)
              with
            | error e =>
              rw [hseg2, except_bind_error] at h
              cases h
            | ok seg2 =>
              have h2 := hseg _ _ _ _ hseg2
              rw [hseg2, except_bind_ok] at h
              simp only [Except.ok.injEq] at h
              subst h
              refine ⟨by dsimp only; omega, ?_⟩
              intro e he
              obtain ⟨ha, hb⟩ := hv3 e he
              exact ⟨ha, by dsimp only; omega⟩
          · rw [if_neg hld] at h
            simp only [Except.ok.injEq] at h
            subst h
            refine ⟨hv2, ?_⟩
            intro e he
            obtain ⟨ha, hb⟩ := hv3 e he
            exact ⟨ha, by dsimp only; omega⟩

/-- The multi-route refinement loop on success: one refined route per input
route, and route `k` is exactly the result of `refineRouteWithTraffic` started
at the loop start time plus the refined durations of the earlier routes. -/
theorem refineMultiGo_spec (apiKey : String)
    (fetchResp : Loc → Loc → Int → DirectionsResponse) (depot : Loc) :
    ∀ (routes : List RouteResult) (t : Int) (rs : List RouteResult),
      refineMultiGo apiKey fetchResp depot routes t = .ok rs →
      rs.length = routes.length ∧
      ∀ k (hk : k < rs.length) (hk2 : k < routes.length),
        ∃ ref : RefinedRoute,
          refineRouteWithTraffic apiKey fetchResp depot (routes.get ⟨k, hk2⟩).stops
            (t + ((rs.take k).map (fun r => r.totalDurationSeconds)).sum) = .ok ref ∧
          (rs.get ⟨k, hk⟩).stops = ref.orderedStops ∧
          (rs.get ⟨k, hk⟩).totalDurationSeconds = ref.totalDurationSeconds := by
  intro routes
  induction routes with
  | nil =>
    intro t rs h
    simp only [refineMultiGo, Except.ok.injEq] at h
    subst h
    exact ⟨rfl, by intro k hk hk2; cases hk⟩
  | cons route rest ih =>
    intro t rs h
    rw [refineMultiGo] at h
    cases href : refineRouteWithTraffic apiKey fetchResp depot route.stops t with
    | error e =>
      rw [href, except_bind_error] at h
      cases h
    | ok refined =>
      rw [href, except_bind_ok] at h
      dsimp only at h
      cases hrest : refineMultiGo apiKey fetchResp depot rest (t + refined.totalDurationSeconds)
        with
      | error e =>
        rw [hrest, except_bind_error] at h
        cases h
      | ok rest2 =>
        rw [hrest, except_bind_ok] at h
        simp only [Except.ok.injEq] at h
        subst h
        obtain ⟨ihlen, ihspec⟩ := ih (t + refined.totalDurationSeconds) rest2 hrest
        constructor
        · simp [ihlen]
        · intro k hk hk2
          cases k with
          | zero =>
            refine ⟨refined, ?_, rfl, rfl⟩
            simp only [List.take_zero, List.map_nil, List.sum_nil, add_zero]
            exact href
          | succ j =>
            have hj : j < rest2.length := by
              simp only [List.length_cons] at hk
              omega
            have hj2 : j < rest.length := by
              simp only [List.length_cons] at hk2
              omega
            obtain ⟨ref, hre, hstops, hdur⟩ := ihspec j hj hj2
            refine ⟨ref, ?_, hstops, hdur⟩
            rw [show ((List.take (j + 1) (_ :: rest2)).map
                (fun r => r.totalDurationSeconds)).sum =
              refined.totalDurationSeconds +
                ((rest2.take j).map (fun r => r.totalDurationSeconds)).sum from by
              simp [List.take_succ_cons]]
            rw [show t + (refined.totalDurationSeconds +
                ((rest2.take j).map (fun r => r.totalDurationSeconds)).sum) =
              t + refined.totalDurationSeconds +
                ((rest2.take j).map (fun r => r.totalDurationSeconds)).sum from by ring]
            exact hre

/-- C4: when multiple routes are supplied to the traffic-refinement POST
handler, on success one refined route is produced per input route and route
`k+1` is refined with an effective start time equal to the start time of
route `k` plus the refined total duration of route `k`; consequently the first stop ETA of
refined leg `k+1` is at least the last stop ETA of refined leg `k` (given the
directions oracle returns non-negative durations and service times are
non-negative). -/
theorem c4_sequential_driver_rule (apiKey : String)
    (fetchResp : Loc → Loc → Int → DirectionsResponse) (depot : Loc)
    (routes : List RouteResult) (start : Int) (res : OptimizeResponse)
    (hseg : ∀ o d t s, getSegmentDuration (fetchResp o d t) = .ok s → 0 ≤ s.durationInTraffic)
    (hsvc : ∀ route ∈ routes, ∀ st ∈ route.stops, 0 ≤ st.serviceMinutes)
    (hres : refineTrafficPOST apiKey fetchResp depot routes start = .ok res) :
    res.routes.length = routes.length ∧
    ∀ k (hk1 : k + 1 < res.routes.length) (hk0 : k + 1 < routes.length),
      (∃ ref : RefinedRoute,
        refineRouteWithTraffic apiKey fetchResp depot (routes.get ⟨k + 1, hk0⟩).stops
          ((start + ((res.routes.take k).map (fun r => r.totalDurationSeconds)).sum) +
            (res.routes.get ⟨k, Nat.lt_of_succ_lt hk1⟩).totalDurationSeconds) = .ok ref ∧
        (res.routes.get ⟨k + 1, hk1⟩).stops = ref.orderedStops) ∧
      ∀ e1 e2,
        (res.routes.get ⟨k, Nat.lt_of_succ_lt hk1⟩).stops.getLast? = some e1 →
        (res.routes.get ⟨k + 1, hk1⟩).stops.head? = some e2 →
        e1.etaIso ≤ e2.etaIso := by
  unfold refineTrafficPOST at hres
  cases hm : refineMultiGo apiKey fetchResp depot routes start with
  | error e =>
    rw [hm, except_bind_error] at hres
    cases hres
  | ok rs =>
    rw [hm, except_bind_ok] at hres
    simp only [Except.ok.injEq] at hres
    subst hres
    obtain ⟨hlen, hspec⟩ := refineMultiGo_spec apiKey fetchResp depot routes start rs hm
    dsimp only
    refine ⟨hlen, ?_⟩
    intro k hk1 hk0
    have hkk : k < rs.length := Nat.lt_of_succ_lt hk1
    have hkk2 : k < routes.length := Nat.lt_of_succ_lt hk0
    obtain ⟨refk, hrefk, hstk, hdurk⟩ := hspec k hkk hkk2
    obtain ⟨refk1, hrefk1, hstk1, hdurk1⟩ := hspec (k + 1) hk1 hk0
    have htake : ((rs.take (k + 1)).map (fun r => r.totalDurationSeconds)).sum =
        ((rs.take k).map (fun r => r.totalDurationSeconds)).sum +
          (rs.get ⟨k, hkk⟩).totalDurationSeconds := by
      rw [List.take_succ, List.getElem?_eq_getElem hkk, Option.toList_some, List.map_append,
        List.sum_append, List.map_singleton, List.sum_singleton, List.get_eq_getElem]
    have hstart1 : start + ((rs.take (k + 1)).map (fun r => r.totalDurationSeconds)).sum =
        (start + ((rs.take k).map (fun r => r.totalDurationSeconds)).sum) +
          (rs.get ⟨k, hkk⟩).totalDurationSeconds := by
      rw [htake]
      ring
    rw [hstart1] at hrefk1
    refine ⟨⟨refk1, hrefk1, hstk1⟩, ?_⟩
    intro e1 e2 he1 he2
    have hsvck : ∀ st ∈ (routes.get ⟨k, hkk2⟩).stops, 0 ≤ st.serviceMinutes :=
      hsvc _ (List.get_mem routes k hkk2)
    have hsvck1 : ∀ st ∈ (routes.get ⟨k + 1, hk0⟩).stops, 0 ≤ st.serviceMinutes :=
      hsvc _ (List.get_mem routes (k + 1) hk0)
    obtain ⟨hbk1, hbk2⟩ := refineRoute_eta_bounds apiKey fetchResp depot
      (routes.get ⟨k, hkk2⟩).stops
      (start + ((rs.take k).map (fun r => r.totalDurationSeconds)).sum) refk hseg hsvck hrefk
    obtain ⟨hck1, hck2⟩ := refineRoute_eta_bounds apiKey fetchResp depot
      (routes.get ⟨k + 1, hk0⟩).stops
      ((start + ((rs.take k).map (fun r => r.totalDurationSeconds)).sum) +
        (rs.get ⟨k, hkk⟩).totalDurationSeconds) refk1 hseg hsvck1 hrefk1
    have he1m : e1 ∈ refk.orderedStops := by
      rw [← hstk]
      exact List.mem_of_mem_getLast? (he1 ▸ rfl)
    have he2m : e2 ∈ refk1.orderedStops := by
      rw [← hstk1]
      exact List.mem_of_mem_head? (he2 ▸ rfl)
    obtain ⟨h1a, h1b⟩ := hbk2 e1 he1m
    obtain ⟨h2a, h2b⟩ := hck2 e2 he2m
    rw [← hdurk] at h1b
    omega

/-- A constant directions oracle: every segment takes 120 seconds in traffic
(100 base) over 500 meters. -/
def c4fetch : Loc → Loc → Int → DirectionsResponse :=
  fun _ _ _ => ⟨true, "OK", [⟨100, some 120, 500⟩]⟩

/-- A delivery stop used in both C4 witness routes. -/
def c4stop : OptimizedStop :=
  ⟨"x", "X", 2, 3, 0, 10000, 5, 0, 0, 0, 0, false⟩

/-- First input route of the C4 witness. -/
def c4routeA : RouteResult :=
  ⟨"r1", [c4stop], 0, 0, 0, 0⟩

/-- Second input route of the C4 witness. -/
def c4routeB : RouteResult :=
  ⟨"r2", [c4stop], 0, 0, 0, 0⟩

/-- The refined first-leg stop (ETA 1120 = 1000 + 120). -/
def c4entry1 : OptimizedStop :=
  ⟨"x", "X", 2, 3, 0, 10000, 5, 1120, 0, 120, 0, false⟩

/-- The refined second-leg stop (ETA 1660 = 1000 + 540 + 120). -/
def c4entry2 : OptimizedStop :=
  ⟨"x", "X", 2, 3, 0, 10000, 5, 1660, 0, 120, 0, false⟩

/-- The full refinement response of the C4 witness input. -/
def c4res : OptimizeResponse :=
  ⟨[c4entry1, c4entry2], 2000, 1080, 1000,
    [⟨"r1", [c4entry1], 540, 1000, 450, 450⟩, ⟨"r2", [c4entry2], 540, 1000, 450, 450⟩]⟩

/-- C4 (witness): the sequential-driver theorem applied to two one-stop routes
under the constant oracle; the second leg starts 540 seconds (the refined
duration of the first leg) after the first, and its first ETA 1660 is at
least the last ETA 1120 of the first leg. -/
theorem c4_sequential_driver_rule_witness :
    refineTrafficPOST "key" c4fetch (0, 0) [c4routeA, c4routeB] 1000 = .ok c4res ∧
    c4res.routes.length = 2 ∧
    c4entry1.etaIso ≤ c4entry2.etaIso := by
  have h0 : refineTrafficPOST "key" c4fetch (0, 0) [c4routeA, c4routeB] 1000 = .ok c4res := rfl
  have hseg : ∀ o d t s, getSegmentDuration (c4fetch o d t) = .ok s → 0 ≤ s.durationInTraffic := by
    intro o d t s hs
    have hs2 : (Except.ok (⟨100, 120, 500⟩ : SegmentData) : Except String SegmentData) =
        .ok s := hs
    injection hs2 with h
    subst h
    decide
  have hsvc : ∀ route ∈ [c4routeA, c4routeB], ∀ st ∈ route.stops, 0 ≤ st.serviceMinutes := by
    decide
  have main := c4_sequential_driver_rule "key" c4fetch (0, 0) [c4routeA, c4routeB] 1000 c4res
    hseg hsvc h0
  refine ⟨h0, main.1, ?_⟩
  exact (main.2 0 (by decide) (by decide)).2 c4entry1 c4entry2 rfl rfl

end TabkhaDriver
